import Mathlib

/-!
Verification of the DynamicFormGenerator component
(src/src/DynamicFormGenerator.tsx).

The component is embedded shallowly:

* JSON values produced by the platform `JSON.parse` are modelled by the
  inductive type `Json`.  JSON numbers are modelled as integers: the
  component only ever consumes a number through JavaScript truthiness
  (zero / non-zero), never through arithmetic.
* `JSON.parse` itself and the platform regular-expression engine are
  platform services, not code of this repository; they enter the model as
  oracles: a parse result `Option Json` (`none` = `SyntaxError` thrown by
  `JSON.parse`) and a compilation oracle
  `compile : String → Option (String → Bool)` (`none` = the `RegExp`
  constructor throws, `some test` = a compiled regex with its `test`
  method).
* A JavaScript function that can throw is embedded as `Except String α`;
  the `.error` payload is the thrown error's `message`.
* React state is explicit: the `useState` cells of the component become
  the fields of `JState` (schema-editor side) and `FState` (form side);
  an event handler becomes a function from state to state.  JavaScript
  objects used as string maps (`formData`, `formErrors`, `newErrors`)
  become association lists with JavaScript assignment semantics
  (`objInsert`: overwrite in place, otherwise append).
-/

/-- A JSON value as produced by `JSON.parse`.  Numbers are modelled as
integers (only their truthiness is ever consumed by the component). -/
inductive Json where
  | null : Json
  | bool : Bool → Json
  | num : Int → Json
  | str : String → Json
  | arr : List Json → Json
  | obj : List (String × Json) → Json

/-- JavaScript truthiness of a JSON value: `null`, `false`, `0` and `""`
are falsy; objects and arrays (even empty) are truthy. -/
def Json.truthy : Json → Bool
  | .null => false
  | .bool b => b
  | .num n => n != 0
  | .str s => s != ""
  | .arr _ => true
  | .obj _ => true

/-- Truthiness of a property-access result; `none` is JavaScript
`undefined`, which is falsy. -/
def truthyOpt : Option Json → Bool
  | none => false
  | some v => v.truthy

/-- `typeof v === "object"` in JavaScript: true for `null`, plain objects
and arrays; false for strings, numbers and booleans. -/
def jsTypeofIsObject : Json → Bool
  | .null => true
  | .obj _ => true
  | .arr _ => true
  | _ => false

/-- `Array.isArray`. -/
def jsIsArray : Json → Bool
  | .arr _ => true
  | _ => false

/-- Pure member lookup: the member of an object, `none` (undefined)
otherwise.  Used to state claims; `jsGet` below is the effectful access
the code performs. -/
def jmember : Json → String → Option Json
  | .obj kvs, k => (kvs.find? (fun p => p.1 = k)).map (·.2)
  | _, _ => none

/-- JavaScript property access `v.k`: throws a `TypeError` on `null`,
returns the member (or `undefined`, i.e. `none`) otherwise.  Strings,
numbers, booleans and arrays have none of the accessed members, so the
access yields `undefined`. -/
def jsGet : Json → String → Except String (Option Json)
  | .null, k => .error ("TypeError: Cannot read properties of null (reading " ++ k ++ ")")
  | .obj kvs, k => .ok ((kvs.find? (fun p => p.1 = k)).map (·.2))
  | _, _ => .ok none

mutual

/-- A compact rendering of a JSON value, standing in for
`JSON.stringify(v, null, 2)` in error messages (the indentation of the
platform stringifier is elided; only the message's non-emptiness matters
to the verified properties). -/
def jsonStringify : Json → String
  | .null => "null"
  | .bool true => "true"
  | .bool false => "false"
  | .num n => toString n
  | .str s => "\"" ++ s ++ "\""
  | .arr xs => "[" ++ stringifyItems xs ++ "]"
  | .obj kvs => "\x7b" ++ stringifyMembers kvs ++ "\x7d"

def stringifyItems : List Json → String
  | [] => ""
  | [x] => jsonStringify x
  | x :: y :: rest => jsonStringify x ++ "," ++ stringifyItems (y :: rest)

def stringifyMembers : List (String × Json) → String
  | [] => ""
  | [(k, v)] => "\"" ++ k ++ "\":" ++ jsonStringify v
  | (k, v) :: m :: rest =>
    "\"" ++ k ++ "\":" ++ jsonStringify v ++ "," ++ stringifyMembers (m :: rest)

end

/-- Error message thrown when `fields` is missing or not an array
(DynamicFormGenerator.tsx lines 86-88). -/
def fieldsErrMsg : String :=
  "Missing or invalid \"fields\". Example:\n\"fields\": [\n  \x7b\n    \"id\": \"name\",\n    \"type\": \"text\",\n    \"label\": \"Name\",\n    \"required\": true\n  \x7d\n]"

/-- Error message thrown when a field entry is invalid
(DynamicFormGenerator.tsx lines 98-104); includes the first offending
entry. -/
def invalidFieldMsg (bad : Json) : String :=
  "Invalid field detected:\n" ++ jsonStringify bad ++
  "\nExample of a valid field:\n\x7b\n  \"id\": \"name\",\n  \"type\": \"text\",\n  \"label\": \"Name\",\n  \"required\": true\n\x7d"

/-- Error message thrown when `formDescription` is missing or invalid
(DynamicFormGenerator.tsx lines 112-114). -/
def descErrMsg : String :=
  "Missing or invalid \"formDescription\". Example:\n\"formDescription\": \"Please fill out this form to help us gather your feedback\","

/-- Error message thrown when `formTitle` is missing or invalid
(DynamicFormGenerator.tsx lines 119-121). -/
def titleErrMsg : String :=
  "Missing or invalid \"formTitle\". Example:\n\"formTitle\": \"Project Requirements Survey\","

/-- Error message shown when `JSON.parse` throws a `SyntaxError`
(DynamicFormGenerator.tsx lines 129-142). -/
def invalidJsonFormatMsg : String :=
  "Invalid JSON format. Please fix the syntax errors.\nExample:\n\x7b\n    \"formTitle\": \"Project Requirements Survey\",\n    \"formDescription\": \"Please fill out this form to help us gather your feedback\",\n    \"fields\": [\n      \x7b\n        \"id\": \"name\",\n        \"type\": \"text\",\n        \"label\": \"Name\",\n        \"required\": true\n      \x7d\n    ]\n  \x7d"

/-- The filter callback of lines 92-95:
`typeof field !== "object" || Array.isArray(field) || !field.id`.
Accessing `.id` on a `null` entry throws a `TypeError` (in JavaScript
`typeof null === "object"`, so `null` reaches the `.id` access). -/
def fieldEntryInvalid (f : Json) : Except String Bool :=
  if !jsTypeofIsObject f then .ok true
  else if jsIsArray f then .ok true
  else
    match jsGet f "id" with
    | .error e => .error e
    | .ok idM => .ok (!truthyOpt idM)

/-- `parsed.fields.filter(callback)`: the callback runs on every element
in order; the first exception it throws propagates.  Returns the list of
invalid entries. -/
def collectInvalid : List Json → Except String (List Json)
  | [] => .ok []
  | f :: rest =>
    match fieldEntryInvalid f with
    | .error e => .error e
    | .ok b =>
      match collectInvalid rest with
      | .error e => .error e
      | .ok tail => .ok (if b then f :: tail else tail)

/-- The body of the `try` block of `handleJsonChange`
(DynamicFormGenerator.tsx lines 82-126) after a successful `JSON.parse`:
structural validation of the parsed value.  `.error` is a thrown
`Error`'s message.

The source tests `!parsed.fields || !Array.isArray(parsed.fields)`; an
array is always truthy, so the test fails exactly when the `fields`
member access yields an array, which the single `match` below captures.
The checks run in source order: `fields` shape, field entries,
`formDescription`, then `formTitle`.  `!parsed.formDescription ||
typeof parsed.formDescription !== "string"` passes exactly when the
member is a non-empty string, likewise for `formTitle`. -/
def checkSchema (parsed : Json) : Except String Json :=
  match jsGet parsed "fields" with
  | .error e => .error e
  | .ok (some (.arr fs)) =>
    (match collectInvalid fs with
    | .error e => .error e
    | .ok (bad :: _) => .error (invalidFieldMsg bad)
    | .ok [] =>
      match jsGet parsed "formDescription" with
      | .error e => .error e
      | .ok descM =>
        if !(match descM with | some (.str s) => s != "" | _ => false) then
          .error descErrMsg
        else
          match jsGet parsed "formTitle" with
          | .error e => .error e
          | .ok titleM =>
            if !(match titleM with | some (.str s) => s != "" | _ => false) then
              .error titleErrMsg
            else .ok parsed)
  | .ok _ => .error fieldsErrMsg

/-- The default schema (DynamicFormGenerator.tsx lines 32-36), as the
JSON value held in `parsedSchema`. -/
def defaultSchemaJson : Json :=
  .obj [("formTitle", .str "New Form"),
        ("formDescription", .str "Please fill out this form"),
        ("fields", .arr [])]

/-- The schema-editor side of the component state: the `jsonSchema`,
`parsedSchema` and `jsonError` `useState` cells. -/
structure JState where
  jsonSchema : String
  parsedSchema : Json
  jsonError : String

/-- `handleJsonChange` (DynamicFormGenerator.tsx lines 79-155).
`parseResult` is the outcome of the platform `JSON.parse` on `value`
(`none` = `SyntaxError`).  On a `SyntaxError` the fixed format message is
shown; on any other thrown `Error` its message is shown; in both cases
the schema reverts to the default.  On success the parsed value replaces
the schema and the error is cleared. -/
def handleJsonChange (value : String) (parseResult : Option Json) (s : JState) : JState :=
  let s1 : JState := { s with jsonSchema := value }
  match parseResult with
  | none =>
    { s1 with jsonError := invalidJsonFormatMsg, parsedSchema := defaultSchemaJson }
  | some parsed =>
    match checkSchema parsed with
    | .ok p => { s1 with parsedSchema := p, jsonError := "" }
    | .error msg => { s1 with jsonError := msg, parsedSchema := defaultSchemaJson }

/-- A field type (DynamicFormGenerator.tsx lines 9-20, `FormField.type`). -/
inductive FieldType where
  | text | email | select | radio | textarea
deriving DecidableEq

/-- The optional `validation` member of a field: a regular-expression
source string and the message shown when the value does not match. -/
structure Validation where
  pattern : String
  message : String
deriving DecidableEq

/-- An entry of a field's `options` list. -/
structure FieldOption where
  value : String
  label : String
deriving DecidableEq

/-- A form field (DynamicFormGenerator.tsx lines 9-20). -/
structure FormField where
  id : String
  type : FieldType
  label : String
  required : Bool
  placeholder : Option String := none
  validation : Option Validation := none
  options : Option (List FieldOption) := none
deriving DecidableEq

/-- A form schema (DynamicFormGenerator.tsx lines 22-26). -/
structure FormSchema where
  formTitle : String
  formDescription : String
  fields : List FormField
deriving DecidableEq

/-- JavaScript object assignment `m[k] = v` (also the spread
`{...m, [k]: v}`): overwrite the existing entry in place, otherwise
append. -/
def objInsert (m : List (String × String)) (k v : String) : List (String × String) :=
  match m with
  | [] => [(k, v)]
  | (k1, v1) :: rest => if k1 = k then (k, v) :: rest else (k1, v1) :: objInsert rest k v

/-- JavaScript object member read `m[k]`: the stored value, or `none`
(`undefined`) when the key is absent. -/
def objGet (m : List (String × String)) (k : String) : Option String :=
  match m with
  | [] => none
  | (k1, v1) :: rest => if k1 = k then some v1 else objGet rest k

/-- `formData[field.id]` as consumed by `validateField`: a missing entry
is `undefined`, and `validateField` only ever tests the value's
truthiness, so `undefined` behaves exactly like `""`. -/
def fieldVal (fd : List (String × String)) (k : String) : String :=
  (objGet fd k).getD ""

/-- `validateField` (DynamicFormGenerator.tsx lines 66-77), parameterised
by the platform regex oracle `compile` (`none` = the `RegExp` constructor
throws on that source string, modelled as `.error`; the thrown exception
is uncaught in the source).  `!value` on a string is truthiness, i.e.
`value = ""`; `field.validation?.pattern && value` is truthy exactly when
`validation` is present with a non-empty `pattern` and `value` is
non-empty. -/
def validateField (compile : String → Option (String → Bool))
    (field : FormField) (value : String) : Except String String :=
  if field.required = true ∧ value = "" then .ok "This field is required"
  else
    match field.validation with
    | some v =>
      if v.pattern ≠ "" ∧ value ≠ "" then
        match compile v.pattern with
        | none => .error "SyntaxError: Invalid regular expression"
        | some test => if test value = false then .ok v.message else .ok ""
      else .ok ""
    | none => .ok ""

/-- The form side of the component state: the `parsedSchema` (as consumed
by the renderer through the `FormSchema` interface), `formData`,
`formErrors`, `isSubmitting` and `submitSuccess` `useState` cells. -/
structure FState where
  parsedSchema : FormSchema
  formData : List (String × String)
  formErrors : List (String × String)
  isSubmitting : Bool
  submitSuccess : Bool
deriving DecidableEq

/-- The body of the form-data-initialising effect
(DynamicFormGenerator.tsx lines 48-54): reduce the schema's fields into
an object mapping every field id to `""`. -/
def initFormData (fields : List FormField) : List (String × String) :=
  fields.foldl (fun acc f => objInsert acc f.id "") []

/-- The combined state transition performed when the active schema is
replaced: `setParsedSchema` followed by the effect of lines 48-54, which
re-initialises `formData` from the new schema.  No other `useState` cell
is written: in particular `formErrors` is left untouched. -/
def applyNewSchema (s : FState) (sch : FormSchema) : FState :=
  { s with parsedSchema := sch, formData := initFormData sch.fields }

/-- `handleInputChange` (DynamicFormGenerator.tsx lines 157-171): store
the new value under the field id, and if a field with that id exists in
the schema, validate the new value and store the result under the same
id in `formErrors`.  A thrown `validateField` exception propagates. -/
def handleInputChange (compile : String → Option (String → Bool))
    (fieldId value : String) (s : FState) : Except String FState :=
  let s1 : FState := { s with formData := objInsert s.formData fieldId value }
  match s.parsedSchema.fields.find? (fun f => f.id = fieldId) with
  | some f =>
    (match validateField compile f value with
    | .error e => .error e
    | .ok e => .ok { s1 with formErrors := objInsert s1.formErrors fieldId e })
  | none => .ok s1

/-- The `forEach` loop of `handleSubmit` (DynamicFormGenerator.tsx lines
181-187): walk the schema's fields in order, validating each against the
current form data; a non-empty error is recorded in `newErrors` under the
field id and raises the `hasErrors` flag.  A thrown `validateField`
exception propagates. -/
def collectErrors (compile : String → Option (String → Bool))
    (fd : List (String × String)) (acc : List (String × String)) (hasErrors : Bool) :
    List FormField → Except String (List (String × String) × Bool)
  | [] => .ok (acc, hasErrors)
  | f :: rest =>
    match validateField compile f (fieldVal fd f.id) with
    | .error e => .error e
    | .ok e =>
      if e ≠ "" then collectErrors compile fd (objInsert acc f.id e) true rest
      else collectErrors compile fd acc hasErrors rest

/-- `handleSubmit` (DynamicFormGenerator.tsx lines 173-201): set
`isSubmitting`, validate every field collecting all errors, replace
`formErrors` wholesale with the collected errors; when errors exist, end
with `isSubmitting` false and `submitSuccess` untouched; when none exist,
set `submitSuccess` and end with `isSubmitting` false (the `finally`
block).  The submitted data only goes to `console.log`. -/
def handleSubmit (compile : String → Option (String → Bool)) (s : FState) :
    Except String FState :=
  let s1 : FState := { s with isSubmitting := true }
  match collectErrors compile s1.formData [] false s1.parsedSchema.fields with
  | .error e => .error e
  | .ok r =>
    let s2 : FState := { s1 with formErrors := r.1 }
    if r.2 = true then .ok { s2 with isSubmitting := false }
    else .ok { s2 with submitSuccess := true, isSubmitting := false }

/-- The auto-dismiss effect (DynamicFormGenerator.tsx lines 56-64): when
`submitSuccess` is set, a timer of 3000 milliseconds is scheduled whose
firing clears `submitSuccess`; otherwise no timer is pending.  The result
is the scheduled delay together with the state produced when the timer
fires. -/
def autoDismissEffect (s : FState) : Option (Nat × FState) :=
  if s.submitSuccess = true then some (3000, { s with submitSuccess := false })
  else none

/-! ## Predicates and fixtures used to state the verified properties -/

/-- Is the value a plain (non-null, non-array) object? -/
def isObj : Json → Bool
  | .obj _ => true
  | _ => false

/-- A field entry that the filter of lines 92-95 accepts: a plain object
whose `id` member is truthy. -/
def goodEntry (f : Json) : Bool :=
  isObj f && truthyOpt (jmember f "id")

/-- Does the value have a `fields` member holding an array? -/
def hasFieldsArr (p : Json) : Bool :=
  match jmember p "fields" with
  | some (.arr _) => true
  | _ => false

/-- A field entry of the kinds the structural validator must reject: not
an object (which includes arrays and `null`), or an object without an
`id` member. -/
def entryBad (f : Json) : Bool :=
  !isObj f || (match jmember f "id" with | none => true | some _ => false)

/-- The initial editor-side state (the `useState` initialisers of lines
39-41). -/
def jsInit : JState :=
  { jsonSchema := "", parsedSchema := defaultSchemaJson, jsonError := "" }

/-- A regex oracle under which every pattern compiles, to a test that
accepts exactly the string "123". -/
def digitsOracle : String → Option (String → Bool) :=
  fun _ => some (fun s => decide (s = "123"))

/-- A regex oracle under which no pattern compiles (the `RegExp`
constructor always throws). -/
def noneOracle : String → Option (String → Bool) :=
  fun _ => none

/-- A required text field without a pattern. -/
def sampleReqField : FormField :=
  { id := "name", type := .text, label := "Name", required := true }

/-- An optional field carrying a digit pattern. -/
def samplePatternField : FormField :=
  { id := "code", type := .text, label := "Code", required := false,
    validation := some { pattern := "^\\d+$", message := "Numbers only" } }

/-- A field whose pattern is an invalid regular-expression source. -/
def badPatternField : FormField :=
  { id := "x", type := .text, label := "X", required := false,
    validation := some { pattern := "(", message := "bad" } }

/-- The schema of the spec's submit scenario: one required text field
with id "name". -/
def newSchemaOne : FormSchema :=
  { formTitle := "T", formDescription := "D",
    fields := [{ id := "name", type := .text, label := "Name", required := true }] }

/-- The schema in place before the counterexample's schema change. -/
def oldSchemaOne : FormSchema :=
  { formTitle := "Old", formDescription := "Old form",
    fields := [{ id := "old", type := .text, label := "Old", required := true }] }

/-- A form-side state holding a stale error entry under id "old". -/
def staleState : FState :=
  { parsedSchema := oldSchemaOne,
    formData := [("old", "x")],
    formErrors := [("old", "stale")],
    isSubmitting := false,
    submitSuccess := false }

/-- The submit scenario with the required field left empty. -/
def scenarioState : FState :=
  { parsedSchema := newSchemaOne, formData := [("name", "")], formErrors := [],
    isSubmitting := false, submitSuccess := false }

/-- The submit scenario with the required field filled with "Alice". -/
def scenarioFilled : FState :=
  { parsedSchema := newSchemaOne, formData := [("name", "Alice")], formErrors := [],
    isSubmitting := false, submitSuccess := false }

/-- A parsed value without a `fields` member. -/
def noFieldsJson : Json := .obj [("formTitle", .str "T")]

/-- A parsed value whose `fields` array contains a non-object entry. -/
def badEntryJson : Json :=
  .obj [("fields", .arr [.str "oops"]), ("formTitle", .str "T"),
        ("formDescription", .str "D")]

/-- A parsed value whose `formDescription` is present and a string, but
empty. -/
def emptyDescJson : Json :=
  .obj [("formTitle", .str "T"), ("formDescription", .str ""), ("fields", .arr [])]

/-- A structurally valid parsed value. -/
def goodJson : Json :=
  .obj [("formTitle", .str "T"), ("formDescription", .str "D"),
        ("fields", .arr [.obj [("id", .str "name"), ("type", .str "text"),
          ("label", .str "Name"), ("required", .bool true)]])]

/-! ## Helper lemmas about the object-map operations -/

/-- Reading an assigned key gives the assigned value; other keys are
untouched. -/
theorem objGet_objInsert (m : List (String × String)) (k v k1 : String) :
    objGet (objInsert m k v) k1 = if k1 = k then some v else objGet m k1 := by
  induction m with
  | nil =>
    rcases eq_or_ne k1 k with rfl | h1
    · simp [objInsert, objGet]
    · simp [objInsert, objGet, h1, Ne.symm h1]
  | cons p rest ih =>
    obtain ⟨k2, v2⟩ := p
    rcases eq_or_ne k2 k with rfl | h2
    · rcases eq_or_ne k1 k2 with rfl | h1
      · simp [objInsert, objGet]
      · simp [objInsert, objGet, h1, Ne.symm h1]
    · rcases eq_or_ne k1 k2 with rfl | h1
      · simp [objInsert, objGet, h2, Ne.symm h2]
      · simp [objInsert, objGet, h2, Ne.symm h1, ih]

/-- Reducing field ids into a fresh object maps every id to `""` and
nothing else; general form over an accumulator. -/
theorem objGet_foldl_insert (fs : List FormField) (acc : List (String × String)) (k : String) :
    objGet (fs.foldl (fun a f => objInsert a f.id "") acc) k =
      if k ∈ fs.map (·.id) then some "" else objGet acc k := by
  induction fs generalizing acc with
  | nil => simp
  | cons f rest ih =>
    simp only [List.foldl_cons, List.map_cons, List.mem_cons]
    rw [ih, objGet_objInsert]
    by_cases h1 : k ∈ rest.map (·.id) <;> by_cases h2 : k = f.id <;> simp [h1, h2]

/-- `initFormData` maps exactly the schema's field ids, each to `""`. -/
theorem objGet_initFormData (fs : List FormField) (k : String) :
    objGet (initFormData fs) k = if k ∈ fs.map (·.id) then some "" else none := by
  rw [initFormData, objGet_foldl_insert]
  rfl

/-! ## Helper lemmas about the structural validator -/

/-- Whatever `fieldEntryInvalid` throws has a non-empty message (the only
throw site is the `TypeError` on a `null` entry). -/
theorem fieldEntryInvalid_error_ne (f : Json) (msg : String)
    (h : fieldEntryInvalid f = .error msg) : msg ≠ "" := by
  cases f with
  | null =>
    have h2 : (Except.error ("TypeError: Cannot read properties of null (reading " ++ "id" ++ ")") :
        Except String Bool) = .error msg := h
    injection h2 with h3
    subst h3
    decide
  | bool b => exact Except.noConfusion (show (Except.ok true : Except String Bool) = .error msg from h)
  | num n => exact Except.noConfusion (show (Except.ok true : Except String Bool) = .error msg from h)
  | str s => exact Except.noConfusion (show (Except.ok true : Except String Bool) = .error msg from h)
  | arr xs => exact Except.noConfusion (show (Except.ok true : Except String Bool) = .error msg from h)
  | obj kvs =>
    exact Except.noConfusion
      (show (Except.ok (!truthyOpt ((kvs.find? (fun p => p.1 = "id")).map (·.2))) :
        Except String Bool) = .error msg from h)

/-- Whatever the field filter throws has a non-empty message. -/
theorem collectInvalid_error_ne (fs : List Json) (msg : String)
    (h : collectInvalid fs = .error msg) : msg ≠ "" := by
  induction fs with
  | nil => exact Except.noConfusion h
  | cons f rest ih =>
    rw [collectInvalid] at h
    cases hf : fieldEntryInvalid f with
    | error m =>
      rw [hf] at h
      injection h with h3
      subst h3
      exact fieldEntryInvalid_error_ne f m hf
    | ok b =>
      rw [hf] at h
      cases ht : collectInvalid rest with
      | error m =>
        rw [ht] at h
        injection h with h3
        subst h3
        exact ih ht
      | ok l =>
        rw [ht] at h
        exact Except.noConfusion h

/-- The `TypeError` raised by a member access on `null` has a non-empty
message. -/
theorem jsGet_error_ne (p : Json) (k e : String) (h : jsGet p k = .error e) : e ≠ "" := by
  cases p with
  | null =>
    injection h with h2
    subst h2
    intro he
    have h3 := congrArg String.length he
    rw [String.length_append, String.length_append] at h3
    have h4 : ("TypeError: Cannot read properties of null (reading ").length = 51 := rfl
    have h5 : ("" : String).length = 0 := rfl
    omega
  | bool b => exact Except.noConfusion h
  | num n => exact Except.noConfusion h
  | str s => exact Except.noConfusion h
  | arr xs => exact Except.noConfusion h
  | obj kvs => exact Except.noConfusion h

/-- The message reporting an invalid field entry is non-empty whatever
the offending entry stringifies to. -/
theorem invalidFieldMsg_ne (bad : Json) : invalidFieldMsg bad ≠ "" := by
  intro h
  have h2 := congrArg String.length h
  rw [invalidFieldMsg, String.length_append, String.length_append] at h2
  have h3 : ("Invalid field detected:\n").length = 24 := rfl
  have h4 : ("" : String).length = 0 := rfl
  omega

/-- Every error the structural validator can produce carries a non-empty
message. -/
theorem checkSchema_error_ne (parsed : Json) (msg : String)
    (h : checkSchema parsed = .error msg) : msg ≠ "" := by
  rw [checkSchema] at h
  split at h
  · -- member access on `parsed` threw
    next e heq =>
    injection h with h2
    subst h2
    exact jsGet_error_ne parsed "fields" _ heq
  · -- `fields` is an array: walk the remaining checks
    next fs heq =>
    split at h
    · next e hc =>
      injection h with h2
      subst h2
      exact collectInvalid_error_ne fs _ hc
    · next bad tail hc =>
      injection h with h2
      subst h2
      exact invalidFieldMsg_ne bad
    · next hc =>
      split at h
      · next e hd =>
        injection h with h2
        subst h2
        exact jsGet_error_ne parsed "formDescription" _ hd
      · next descM hd =>
        split at h
        · injection h with h2
          subst h2
          decide
        · split at h
          · next e ht =>
            injection h with h2
            subst h2
            exact jsGet_error_ne parsed "formTitle" _ ht
          · next titleM ht =>
            split at h
            · injection h with h2
              subst h2
              decide
            · exact Except.noConfusion h
  · -- `fields` missing or not an array
    injection h with h2
    subst h2
    decide

/-! ## Helper lemmas about the submit-time error collection -/

/-- When every field validates without throwing, the `forEach` loop of
`handleSubmit` completes. -/
theorem collectErrors_ok_of_valid (compile : String → Option (String → Bool))
    (fd : List (String × String)) (fs : List FormField)
    (h : ∀ f ∈ fs, ∃ e, validateField compile f (fieldVal fd f.id) = .ok e) :
    ∀ acc b, ∃ r, collectErrors compile fd acc b fs = .ok r := by
  induction fs with
  | nil => exact fun acc b => ⟨(acc, b), rfl⟩
  | cons f rest ih =>
    intro acc b
    obtain ⟨e, he⟩ := h f (List.mem_cons_self f rest)
    have h2 : ∀ g ∈ rest, ∃ e, validateField compile g (fieldVal fd g.id) = .ok e :=
      fun g hg => h g (List.mem_cons_of_mem f hg)
    simp only [collectErrors, he]
    by_cases hee : e = ""
    · rw [if_neg (fun hn => hn hee)]
      exact ih h2 acc b
    · rw [if_pos hee]
      exact ih h2 (objInsert acc f.id e) true

/-- Keys that are no field id of the walked list are untouched by the
error collection. -/
theorem collectErrors_frame (compile : String → Option (String → Bool))
    (fd : List (String × String)) (fs : List FormField) (k : String)
    (hk : k ∉ fs.map (·.id)) :
    ∀ acc b r, collectErrors compile fd acc b fs = .ok r →
      objGet r.1 k = objGet acc k := by
  induction fs with
  | nil =>
    intro acc b r h
    injection h with h2
    subst h2
    rfl
  | cons f rest ih =>
    intro acc b r h
    simp only [List.map_cons, List.mem_cons] at hk
    push_neg at hk
    simp only [collectErrors] at h
    split at h
    · exact Except.noConfusion h
    · next e hv =>
      split at h
      · exact (ih hk.2 _ _ _ h).trans (by rw [objGet_objInsert, if_neg hk.1])
      · exact ih hk.2 _ _ _ h

/-- With schema-unique ids, an invalid field's message ends up stored
under its id. -/
theorem collectErrors_lookup (compile : String → Option (String → Bool))
    (fd : List (String × String)) (fs : List FormField) (f : FormField) (e : String)
    (hv : validateField compile f (fieldVal fd f.id) = .ok e) (hee : e ≠ "")
    (hnd : (fs.map (·.id)).Nodup) (hmem : f ∈ fs) :
    ∀ acc b r, collectErrors compile fd acc b fs = .ok r →
      objGet r.1 f.id = some e := by
  induction fs with
  | nil => cases hmem
  | cons g rest ih =>
    intro acc b r h
    simp only [List.map_cons, List.nodup_cons] at hnd
    rcases List.mem_cons.mp hmem with rfl | hmem2
    · simp only [collectErrors, hv] at h
      rw [if_pos hee] at h
      rw [collectErrors_frame compile fd rest f.id hnd.1 _ _ _ h]
      rw [objGet_objInsert, if_pos rfl]
    · simp only [collectErrors] at h
      split at h
      · exact Except.noConfusion h
      · next e2 hv2 =>
        split at h
        · exact ih hnd.2 hmem2 _ _ _ h
        · exact ih hnd.2 hmem2 _ _ _ h

/-- Once raised, the `hasErrors` flag stays raised. -/
theorem collectErrors_flag_mono (compile : String → Option (String → Bool))
    (fd : List (String × String)) (fs : List FormField) :
    ∀ acc r, collectErrors compile fd acc true fs = .ok r → r.2 = true := by
  induction fs with
  | nil =>
    intro acc r h
    injection h with h2
    subst h2
    rfl
  | cons f rest ih =>
    intro acc r h
    simp only [collectErrors] at h
    split at h
    · exact Except.noConfusion h
    · next e hv =>
      split at h
      · exact ih _ _ h
      · exact ih _ _ h

/-- An invalid field raises the `hasErrors` flag. -/
theorem collectErrors_flag_of_invalid (compile : String → Option (String → Bool))
    (fd : List (String × String)) (fs : List FormField) (f : FormField) (e : String)
    (hv : validateField compile f (fieldVal fd f.id) = .ok e) (hee : e ≠ "")
    (hmem : f ∈ fs) :
    ∀ acc b r, collectErrors compile fd acc b fs = .ok r → r.2 = true := by
  induction fs with
  | nil => cases hmem
  | cons g rest ih =>
    intro acc b r h
    rcases List.mem_cons.mp hmem with rfl | hmem2
    · simp only [collectErrors, hv] at h
      rw [if_pos hee] at h
      exact collectErrors_flag_mono compile fd rest _ _ h
    · simp only [collectErrors] at h
      split at h
      · exact Except.noConfusion h
      · next e2 hv2 =>
        split at h
        · exact collectErrors_flag_mono compile fd rest _ _ h
        · exact ih hmem2 _ _ _ h

/-- When every field validates to `""`, the collection changes nothing:
no error is recorded and the flag is left as it was. -/
theorem collectErrors_all_valid (compile : String → Option (String → Bool))
    (fd : List (String × String)) (fs : List FormField)
    (h : ∀ f ∈ fs, validateField compile f (fieldVal fd f.id) = .ok "") :
    ∀ acc b, collectErrors compile fd acc b fs = .ok (acc, b) := by
  induction fs with
  | nil => exact fun acc b => rfl
  | cons f rest ih =>
    intro acc b
    have he := h f (List.mem_cons_self f rest)
    have h2 : ∀ g ∈ rest, validateField compile g (fieldVal fd g.id) = .ok "" :=
      fun g hg => h g (List.mem_cons_of_mem f hg)
    simp only [collectErrors, he]
    rw [if_neg (fun hn => hn rfl)]
    exact ih h2 acc b

/-! ## Helper lemmas about the acceptance path of the structural validator -/

/-- A good entry passes the filter callback without throwing. -/
theorem fieldEntryInvalid_of_good (f : Json) (h : goodEntry f = true) :
    fieldEntryInvalid f = .ok false := by
  cases f with
  | obj kvs =>
    simp only [goodEntry, isObj, Bool.true_and] at h
    show Except.ok (!truthyOpt (jmember (.obj kvs) "id")) = .ok false
    simp [h]
  | null => simp [goodEntry, isObj] at h
  | bool b => simp [goodEntry, isObj] at h
  | num n => simp [goodEntry, isObj] at h
  | str s => simp [goodEntry, isObj] at h
  | arr xs => simp [goodEntry, isObj] at h

/-- A list of good entries yields no invalid field. -/
theorem collectInvalid_nil_of_good (fs : List Json)
    (h : ∀ f ∈ fs, goodEntry f = true) : collectInvalid fs = .ok [] := by
  induction fs with
  | nil => rfl
  | cons f rest ih =>
    rw [collectInvalid, fieldEntryInvalid_of_good f (h f (List.mem_cons_self f rest)),
      ih (fun g hg => h g (List.mem_cons_of_mem f hg))]
    rfl

/-- A value with a member is an object. -/
theorem jmember_obj (p : Json) (k : String) (v : Json) (h : jmember p k = some v) :
    ∃ kvs, p = .obj kvs := by
  cases p with
  | obj kvs => exact ⟨kvs, rfl⟩
  | null => exact Option.noConfusion h
  | bool b => exact Option.noConfusion h
  | num n => exact Option.noConfusion h
  | str s => exact Option.noConfusion h
  | arr xs => exact Option.noConfusion h

/-- The structural validator accepts a value whose `fields` member is an
array of good entries and whose `formDescription` and `formTitle`
members are non-empty strings. -/
theorem checkSchema_ok (parsed : Json) (fs : List Json) (d t : String)
    (hf : jmember parsed "fields" = some (.arr fs))
    (hgood : ∀ f ∈ fs, goodEntry f = true)
    (hd : jmember parsed "formDescription" = some (.str d)) (hd2 : d ≠ "")
    (ht : jmember parsed "formTitle" = some (.str t)) (ht2 : t ≠ "") :
    checkSchema parsed = .ok parsed := by
  obtain ⟨kvs, rfl⟩ := jmember_obj _ _ _ hf
  have hjf : jsGet (.obj kvs) "fields" = .ok (some (.arr fs)) := by
    rw [show jsGet (.obj kvs) "fields" = .ok (jmember (.obj kvs) "fields") from rfl, hf]
  have hjd : jsGet (.obj kvs) "formDescription" = .ok (some (.str d)) := by
    rw [show jsGet (.obj kvs) "formDescription" =
      .ok (jmember (.obj kvs) "formDescription") from rfl, hd]
  have hjt : jsGet (.obj kvs) "formTitle" = .ok (some (.str t)) := by
    rw [show jsGet (.obj kvs) "formTitle" = .ok (jmember (.obj kvs) "formTitle") from rfl, ht]
  rw [checkSchema]
  simp only [hjf, collectInvalid_nil_of_good fs hgood, hjd, hjt]
  rw [if_neg (by simp [hd2]), if_neg (by simp [ht2])]

/-! ## Helper lemmas about the rejection paths of the structural validator -/

/-- When the parsed value has no `fields` member holding an array, the
structural validator throws. -/
theorem checkSchema_no_fields (parsed : Json) (h : hasFieldsArr parsed = false) :
    ∃ msg, checkSchema parsed = .error msg := by
  cases parsed with
  | null => exact ⟨_, rfl⟩
  | bool b => exact ⟨fieldsErrMsg, rfl⟩
  | num n => exact ⟨fieldsErrMsg, rfl⟩
  | str s => exact ⟨fieldsErrMsg, rfl⟩
  | arr xs => exact ⟨fieldsErrMsg, rfl⟩
  | obj kvs =>
    rw [hasFieldsArr] at h
    refine ⟨fieldsErrMsg, ?_⟩
    rw [checkSchema, show jsGet (.obj kvs) "fields" = .ok (jmember (.obj kvs) "fields") from rfl]
    cases hm : jmember (.obj kvs) "fields" with
    | none => rfl
    | some v =>
      rw [hm] at h
      cases v with
      | arr fs => exact absurd h (by simp)
      | null => rfl
      | bool b => rfl
      | num n => rfl
      | str s => rfl
      | obj kvs2 => rfl

/-- A bad field entry either makes the filter callback report it invalid
or throw. -/
theorem fieldEntryInvalid_of_bad (f : Json) (hbad : entryBad f = true) :
    fieldEntryInvalid f = .ok true ∨ ∃ e, fieldEntryInvalid f = .error e := by
  cases f with
  | null => exact Or.inr ⟨_, rfl⟩
  | bool b => exact Or.inl rfl
  | num n => exact Or.inl rfl
  | str s => exact Or.inl rfl
  | arr xs => exact Or.inl rfl
  | obj kvs =>
    simp only [entryBad, isObj, Bool.not_true, Bool.false_or] at hbad
    left
    show Except.ok (!truthyOpt (jmember (.obj kvs) "id")) = .ok true
    cases hm : jmember (.obj kvs) "id" with
    | none => rfl
    | some v => rw [hm] at hbad; exact absurd hbad (by simp)

/-- A bad entry in the `fields` array makes the filter either throw or
return a non-empty list of invalid entries. -/
theorem collectInvalid_of_bad (fs : List Json) (f : Json) (hmem : f ∈ fs)
    (hbad : entryBad f = true) :
    (∃ msg, collectInvalid fs = .error msg) ∨
    (∃ bad tail, collectInvalid fs = .ok (bad :: tail)) := by
  induction fs with
  | nil => cases hmem
  | cons g rest ih =>
    cases hg : fieldEntryInvalid g with
    | error e =>
      refine Or.inl ⟨e, ?_⟩
      rw [collectInvalid, hg]
    | ok b =>
      cases ht : collectInvalid rest with
      | error e =>
        refine Or.inl ⟨e, ?_⟩
        rw [collectInvalid, hg, ht]
      | ok tail =>
        rcases List.mem_cons.mp hmem with rfl | hm2
        · rcases fieldEntryInvalid_of_bad f hbad with h1 | ⟨e, h2⟩
          · have hb : b = true := by
              rw [hg] at h1
              injection h1 with hx
            subst hb
            refine Or.inr ⟨f, tail, ?_⟩
            rw [collectInvalid, hg, ht]
            rfl
          · rw [hg] at h2
            exact Except.noConfusion h2
        · rcases ih hm2 with ⟨msg, hmsg⟩ | ⟨bad, tail2, hok⟩
          · rw [ht] at hmsg
            exact Except.noConfusion hmsg
          · rw [ht] at hok
            injection hok with hx
            subst hx
            cases b with
            | false =>
              refine Or.inr ⟨bad, tail2, ?_⟩
              rw [collectInvalid, hg, ht]
              rfl
            | true =>
              refine Or.inr ⟨g, bad :: tail2, ?_⟩
              rw [collectInvalid, hg, ht]
              rfl

/-- A structural-validation throw surfaces as a non-empty `jsonError` and
the default schema. -/
theorem handleJsonChange_of_checkSchema_error (value : String) (s : JState)
    (parsed : Json) (msg : String) (h : checkSchema parsed = .error msg) :
    (handleJsonChange value (some parsed) s).jsonError ≠ "" ∧
    (handleJsonChange value (some parsed) s).parsedSchema = defaultSchemaJson := by
  constructor
  · simp only [handleJsonChange, h]
    exact checkSchema_error_ne parsed msg h
  · simp only [handleJsonChange, h]

/-! ## Claim theorems -/

/-- C1: `validateField` applies its rules in order.  (1) A required field
with an empty value yields the message "This field is required", which is
non-empty.  (2) Otherwise, when a validation pattern is present (and
non-empty, i.e. truthy) and the value is non-empty, the result is
`validation.message` exactly when the compiled regex does not match the
value, `""` when it matches.  (3) Otherwise the result is `""` — in
particular for an empty value on a non-required field with a pattern, and
for a non-empty value on a required field without a pattern. -/
theorem validateField_rule_order (compile : String → Option (String → Bool))
    (field : FormField) (value : String) :
    (field.required = true → value = "" →
      validateField compile field value = .ok "This field is required" ∧
      "This field is required" ≠ "") ∧
    (∀ v test, ¬(field.required = true ∧ value = "") → field.validation = some v →
      v.pattern ≠ "" → value ≠ "" → compile v.pattern = some test →
      validateField compile field value = .ok (if test value then "" else v.message)) ∧
    (¬(field.required = true ∧ value = "") →
      (∀ v, field.validation = some v → (v.pattern = "" ∨ value = "")) →
      validateField compile field value = .ok "") := by
  refine ⟨?_, ?_, ?_⟩
  · intro hr hv
    rw [validateField, if_pos ⟨hr, hv⟩]
    exact ⟨rfl, by decide⟩
  · intro v test hnot hval hp hv hc
    rw [validateField, if_neg hnot]
    simp only [hval]
    rw [if_pos ⟨hp, hv⟩]
    simp only [hc]
    cases htv : test value <;> simp [htv]
  · intro hnot hv
    rw [validateField, if_neg hnot]
    cases hval : field.validation with
    | none => rfl
    | some v =>
      simp only [hval]
      rcases hv v hval with hp | hv2
      · rw [if_neg (fun hx => hx.1 hp)]
      · rw [if_neg (fun hx => hx.2 hv2)]

/-- Witness for C1: concrete runs through each rule — a required field
with empty value, a pattern mismatch, and an empty value exempt from the
pattern check. -/
theorem validateField_rule_order_witness :
    validateField digitsOracle sampleReqField "" = .ok "This field is required" ∧
    validateField digitsOracle samplePatternField "abc" = .ok "Numbers only" ∧
    validateField digitsOracle samplePatternField "" = .ok "" := by
  refine ⟨((validateField_rule_order digitsOracle sampleReqField "").1 rfl rfl).1, ?_, ?_⟩
  · have h := (validateField_rule_order digitsOracle samplePatternField "abc").2.1
      { pattern := "^\\d+$", message := "Numbers only" } (fun s => decide (s = "123"))
      (by decide) rfl (by decide) (by decide) rfl
    exact h.trans rfl
  · exact (validateField_rule_order digitsOracle samplePatternField "").2.2
      (by decide) (fun v hv => Or.inr rfl)

/-- C10: under an oracle that compiles every present (non-empty) pattern,
`validateField` returns a string without raising; but a field whose
pattern the oracle rejects (an invalid regular-expression source is
necessarily non-empty, the empty source being valid) together with any
non-empty value makes the `RegExp` construction inside `validateField`
throw — the exception is uncaught, so the function is not total over all
schema-expressible fields. -/
theorem validateField_total_or_throws (compile : String → Option (String → Bool)) :
    (∀ field value,
      (∀ v, field.validation = some v → v.pattern ≠ "" → ∃ t, compile v.pattern = some t) →
      ∃ r, validateField compile field value = .ok r) ∧
    (∀ field v value, field.validation = some v → compile v.pattern = none →
      v.pattern ≠ "" → value ≠ "" →
      validateField compile field value = .error "SyntaxError: Invalid regular expression") := by
  constructor
  · intro field value h
    rw [validateField]
    by_cases h1 : field.required = true ∧ value = ""
    · rw [if_pos h1]
      exact ⟨_, rfl⟩
    · rw [if_neg h1]
      cases hval : field.validation with
      | none => exact ⟨"", rfl⟩
      | some v =>
        simp only [hval]
        by_cases h2 : v.pattern ≠ "" ∧ value ≠ ""
        · obtain ⟨t, ht⟩ := h v hval h2.1
          rw [if_pos h2]
          simp only [ht]
          by_cases h3 : t value = false
          · rw [if_pos h3]
            exact ⟨v.message, rfl⟩
          · rw [if_neg h3]
            exact ⟨"", rfl⟩
        · rw [if_neg h2]
          exact ⟨"", rfl⟩
  · intro field v value hval hc hp hv
    have h1 : ¬(field.required = true ∧ value = "") := fun hx => hv hx.2
    rw [validateField, if_neg h1]
    simp only [hval]
    rw [if_pos ⟨hp, hv⟩]
    simp only [hc]

/-- Witness for C10: the oracle that always throws, a field with pattern
"(" and the non-empty value "a" make `validateField` raise. -/
theorem validateField_total_or_throws_witness :
    validateField noneOracle badPatternField "a" =
      .error "SyntaxError: Invalid regular expression" :=
  (validateField_total_or_throws noneOracle).2 badPatternField
    { pattern := "(", message := "bad" } "a" rfl rfl (by decide) (by decide)

/-- C2 counterexample: replacing the schema of `staleState` (whose
FormErrors holds an entry under "old") by `newSchemaOne` (which has no
field with id "old") leaves that FormErrors entry in place — the code
never touches `formErrors` on a schema change, so stale entries are not
discarded. -/
theorem applyNewSchema_keeps_stale_error :
    "old" ∉ newSchemaOne.fields.map (·.id) ∧
    objGet (applyNewSchema staleState newSchemaOne).formErrors "old" = some "stale" := by
  exact ⟨by decide, rfl⟩

/-- C2 amended: whenever the active schema is replaced, FormData is
re-initialised to map exactly the field ids of the new schema, each to
`""`; FormErrors, however, is left unchanged by the replacement (stale
entries persist, though the renderer only ever reads the ids of the
current schema). -/
theorem applyNewSchema_formData_exact (s : FState) (sch : FormSchema) :
    (∀ k, objGet (applyNewSchema s sch).formData k =
      if k ∈ sch.fields.map (·.id) then some "" else none) ∧
    (applyNewSchema s sch).formErrors = s.formErrors :=
  ⟨fun k => objGet_initFormData sch.fields k, rfl⟩

/-- C9: a change event on a control whose id resolves to a schema field
updates FormData at that id to the new value and FormErrors at that id to
the validation result of that field against the new value; every other
FormData and FormErrors entry, and every other state cell, is unchanged
(no other field is re-validated). -/
theorem handleInputChange_frame (compile : String → Option (String → Bool))
    (s : FState) (fieldId value : String) (f : FormField) (e : String)
    (hfind : s.parsedSchema.fields.find? (fun g => g.id = fieldId) = some f)
    (hv : validateField compile f value = .ok e) :
    ∃ s2, handleInputChange compile fieldId value s = .ok s2 ∧
      objGet s2.formData fieldId = some value ∧
      (∀ k, k ≠ fieldId → objGet s2.formData k = objGet s.formData k) ∧
      objGet s2.formErrors fieldId = some e ∧
      (∀ k, k ≠ fieldId → objGet s2.formErrors k = objGet s.formErrors k) ∧
      s2.parsedSchema = s.parsedSchema ∧ s2.isSubmitting = s.isSubmitting ∧
      s2.submitSuccess = s.submitSuccess := by
  refine ⟨{ s with formData := objInsert s.formData fieldId value, formErrors := objInsert s.formErrors fieldId e }, ?_, ?_, ?_, ?_, ?_, rfl, rfl, rfl⟩
  · simp only [handleInputChange, hfind, hv]
  · show objGet (objInsert s.formData fieldId value) fieldId = some value
    rw [objGet_objInsert, if_pos rfl]
  · intro k hk
    show objGet (objInsert s.formData fieldId value) k = objGet s.formData k
    rw [objGet_objInsert, if_neg hk]
  · show objGet (objInsert s.formErrors fieldId e) fieldId = some e
    rw [objGet_objInsert, if_pos rfl]
  · intro k hk
    show objGet (objInsert s.formErrors fieldId e) k = objGet s.formErrors k
    rw [objGet_objInsert, if_neg hk]

/-- Witness for C9: typing "Alice" into the "name" control of the
scenario state. -/
theorem handleInputChange_frame_witness :
    ∃ s2, handleInputChange noneOracle "name" "Alice" scenarioState = .ok s2 ∧
      objGet s2.formData "name" = some "Alice" ∧
      (∀ k, k ≠ "name" → objGet s2.formData k = objGet scenarioState.formData k) ∧
      objGet s2.formErrors "name" = some "" ∧
      (∀ k, k ≠ "name" → objGet s2.formErrors k = objGet scenarioState.formErrors k) ∧
      s2.parsedSchema = scenarioState.parsedSchema ∧
      s2.isSubmitting = scenarioState.isSubmitting ∧
      s2.submitSuccess = scenarioState.submitSuccess :=
  handleInputChange_frame noneOracle scenarioState "name" "Alice"
    { id := "name", type := .text, label := "Name", required := true } "" rfl rfl

/-- C5: on malformed JSON (the platform parser throws a `SyntaxError`),
the active schema reverts to the default schema and a non-empty error
message is shown. -/
theorem handleJsonChange_malformed (value : String) (s : JState) :
    (handleJsonChange value none s).parsedSchema = defaultSchemaJson ∧
    (handleJsonChange value none s).jsonError ≠ "" := by
  constructor
  · rfl
  · rw [show (handleJsonChange value none s).jsonError = invalidJsonFormatMsg from rfl]
    decide

/-- C6: when the parsed value has no `fields` member holding an array
(including a non-object parsed value, where the member is absent, and a
`null` parsed value, where the access itself throws a `TypeError`),
`handleJsonChange` reports a non-empty error and the active schema
becomes the default schema. -/
theorem handleJsonChange_missing_fields (value : String) (s : JState) (parsed : Json)
    (h : hasFieldsArr parsed = false) :
    (handleJsonChange value (some parsed) s).jsonError ≠ "" ∧
    (handleJsonChange value (some parsed) s).parsedSchema = defaultSchemaJson := by
  obtain ⟨msg, hmsg⟩ := checkSchema_no_fields parsed h
  exact handleJsonChange_of_checkSchema_error value s parsed msg hmsg

/-- Witness for C6: a parsed object carrying only `formTitle`. -/
theorem handleJsonChange_missing_fields_witness :
    (handleJsonChange "x" (some noFieldsJson) jsInit).jsonError ≠ "" ∧
    (handleJsonChange "x" (some noFieldsJson) jsInit).parsedSchema = defaultSchemaJson :=
  handleJsonChange_missing_fields "x" jsInit noFieldsJson rfl

/-- C7: when the `fields` array contains an entry that is not an object
(arrays and `null` included) or an object without an `id` member,
`handleJsonChange` reports a non-empty error and falls back to the
default schema rather than rendering a partial form. -/
theorem handleJsonChange_invalid_entry (value : String) (s : JState) (parsed : Json)
    (fs : List Json) (f : Json)
    (hf : jmember parsed "fields" = some (.arr fs)) (hmem : f ∈ fs)
    (hbad : entryBad f = true) :
    (handleJsonChange value (some parsed) s).jsonError ≠ "" ∧
    (handleJsonChange value (some parsed) s).parsedSchema = defaultSchemaJson := by
  obtain ⟨kvs, rfl⟩ := jmember_obj _ _ _ hf
  have hjf : jsGet (.obj kvs) "fields" = .ok (some (.arr fs)) := by
    rw [show jsGet (.obj kvs) "fields" = .ok (jmember (.obj kvs) "fields") from rfl, hf]
  have hcs : ∃ msg, checkSchema (.obj kvs) = .error msg := by
    rcases collectInvalid_of_bad fs f hmem hbad with ⟨msg, hmsg⟩ | ⟨bad, tail, hok⟩
    · refine ⟨msg, ?_⟩
      rw [checkSchema]
      simp only [hjf, hmsg]
    · refine ⟨invalidFieldMsg bad, ?_⟩
      rw [checkSchema]
      simp only [hjf, hok]
  obtain ⟨msg, hmsg⟩ := hcs
  exact handleJsonChange_of_checkSchema_error value s (.obj kvs) msg hmsg

/-- Witness for C7: a `fields` array containing the string entry
"oops". -/
theorem handleJsonChange_invalid_entry_witness :
    (handleJsonChange "x" (some badEntryJson) jsInit).jsonError ≠ "" ∧
    (handleJsonChange "x" (some badEntryJson) jsInit).parsedSchema = defaultSchemaJson :=
  handleJsonChange_invalid_entry "x" jsInit badEntryJson [.str "oops"] (.str "oops")
    rfl (List.mem_cons_self _ _) rfl

/-- C3 counterexample: `emptyDescJson` parses to an object whose `fields`
is an (empty) array of objects-with-id, and whose `formTitle` ("T") and
`formDescription` ("") are both present and strings; yet
`handleJsonChange` rejects it — the active schema becomes the default
(not the parsed object) and a non-empty error is shown instead of being
cleared, because the code treats the empty string as missing. -/
theorem handleJsonChange_rejects_empty_description :
    (handleJsonChange "t" (some emptyDescJson) jsInit).parsedSchema = defaultSchemaJson ∧
    (handleJsonChange "t" (some emptyDescJson) jsInit).jsonError = descErrMsg ∧
    descErrMsg ≠ "" := by
  refine ⟨rfl, rfl, by decide⟩

/-- C3 amended: `handleJsonChange` accepts — installing the parsed object
as the active schema and clearing the error — exactly those parsed
objects whose `fields` member is an array of plain objects each carrying
a truthy `id`, and whose `formTitle` and `formDescription` members are
present and are non-empty strings. -/
theorem handleJsonChange_accepts (value : String) (s : JState) (parsed : Json)
    (fs : List Json) (d t : String)
    (hf : jmember parsed "fields" = some (.arr fs))
    (hgood : ∀ f ∈ fs, goodEntry f = true)
    (hd : jmember parsed "formDescription" = some (.str d)) (hd2 : d ≠ "")
    (ht : jmember parsed "formTitle" = some (.str t)) (ht2 : t ≠ "") :
    (handleJsonChange value (some parsed) s).parsedSchema = parsed ∧
    (handleJsonChange value (some parsed) s).jsonError = "" := by
  have hcs := checkSchema_ok parsed fs d t hf hgood hd hd2 ht ht2
  constructor <;> simp only [handleJsonChange, hcs]

/-- Witness for C3 (amended): a structurally valid schema is accepted. -/
theorem handleJsonChange_accepts_witness :
    (handleJsonChange "g" (some goodJson) jsInit).parsedSchema = goodJson ∧
    (handleJsonChange "g" (some goodJson) jsInit).jsonError = "" :=
  handleJsonChange_accepts "g" jsInit goodJson
    [.obj [("id", .str "name"), ("type", .str "text"), ("label", .str "Name"),
      ("required", .bool true)]] "D" "T"
    rfl (by intro f hf; rw [List.mem_singleton] at hf; subst hf; rfl)
    rfl (by decide) rfl (by decide)

/-- C4: on submit (with schema-unique field ids, and a regex oracle under
which every validation returns), every field of the schema is validated
against the current FormData and all errors are collected; when some
field is invalid, FormErrors holds the message of every invalid field,
`submitSuccess` is not set (it keeps its previous value), and
`isSubmitting` is false at the end of the attempt. -/
theorem handleSubmit_error_path (compile : String → Option (String → Bool)) (s : FState)
    (hnd : (s.parsedSchema.fields.map (·.id)).Nodup)
    (hok : ∀ f ∈ s.parsedSchema.fields,
      ∃ e, validateField compile f (fieldVal s.formData f.id) = .ok e)
    (hbad : ∃ f ∈ s.parsedSchema.fields,
      ∃ e, validateField compile f (fieldVal s.formData f.id) = .ok e ∧ e ≠ "") :
    ∃ s2, handleSubmit compile s = .ok s2 ∧
      s2.isSubmitting = false ∧
      s2.submitSuccess = s.submitSuccess ∧
      (∀ f ∈ s.parsedSchema.fields, ∀ e,
        validateField compile f (fieldVal s.formData f.id) = .ok e → e ≠ "" →
        objGet s2.formErrors f.id = some e) := by
  obtain ⟨r, hr⟩ :=
    collectErrors_ok_of_valid compile s.formData s.parsedSchema.fields hok [] false
  obtain ⟨f0, hf0, e0, hv0, he0⟩ := hbad
  have hflag : r.2 = true :=
    collectErrors_flag_of_invalid compile s.formData s.parsedSchema.fields f0 e0
      hv0 he0 hf0 [] false r hr
  refine ⟨{ s with formErrors := r.1, isSubmitting := false }, ?_, rfl, rfl, ?_⟩
  · rw [handleSubmit]
    simp only [hr, hflag, if_pos]
  · intro f hf e hv he
    exact collectErrors_lookup compile s.formData s.parsedSchema.fields f e
      hv he hnd hf [] false r hr

/-- Witness for C4: the spec's scenario — the single required "name"
field submitted empty blocks submission with the message
"This field is required". -/
theorem handleSubmit_error_path_witness :
    ∃ s2, handleSubmit noneOracle scenarioState = .ok s2 ∧
      s2.isSubmitting = false ∧
      s2.submitSuccess = false ∧
      objGet s2.formErrors "name" = some "This field is required" := by
  obtain ⟨s2, h1, h2, h3, h4⟩ := handleSubmit_error_path noneOracle scenarioState
    (by decide)
    (by
      intro f hf
      rw [show scenarioState.parsedSchema.fields =
        [{ id := "name", type := .text, label := "Name", required := true }] from rfl,
        List.mem_singleton] at hf
      subst hf
      exact ⟨"This field is required", rfl⟩)
    ⟨{ id := "name", type := .text, label := "Name", required := true },
      by decide, "This field is required", rfl, by decide⟩
  exact ⟨s2, h1, h2, h3,
    h4 { id := "name", type := .text, label := "Name", required := true }
      (by decide) "This field is required" rfl (by decide)⟩

/-- C8: on submit with no validation error, `submitSuccess` becomes true
and `isSubmitting` is cleared at the end of the attempt; the auto-dismiss
effect then schedules a timer of 3000 milliseconds (3 seconds) whose
firing reverts `submitSuccess` to false. -/
theorem handleSubmit_success_path (compile : String → Option (String → Bool)) (s : FState)
    (hall : ∀ f ∈ s.parsedSchema.fields,
      validateField compile f (fieldVal s.formData f.id) = .ok "") :
    ∃ s2, handleSubmit compile s = .ok s2 ∧
      s2.submitSuccess = true ∧
      s2.isSubmitting = false ∧
      ∃ s3, autoDismissEffect s2 = some (3000, s3) ∧ s3.submitSuccess = false := by
  have hr := collectErrors_all_valid compile s.formData s.parsedSchema.fields hall [] false
  refine ⟨{ s with formErrors := [], submitSuccess := true, isSubmitting := false }, ?_, rfl, rfl, ⟨{ s with formErrors := [], submitSuccess := false, isSubmitting := false }, ?_, rfl⟩⟩
  · rw [handleSubmit]
    simp only [hr]
    rfl
  · rw [autoDismissEffect, if_pos rfl]

/-- Witness for C8: the spec's scenario — the "name" field filled with
"Alice" submits successfully and the 3-second timer clears the success
flag. -/
theorem handleSubmit_success_path_witness :
    ∃ s2, handleSubmit noneOracle scenarioFilled = .ok s2 ∧
      s2.submitSuccess = true ∧
      s2.isSubmitting = false ∧
      ∃ s3, autoDismissEffect s2 = some (3000, s3) ∧ s3.submitSuccess = false :=
  handleSubmit_success_path noneOracle scenarioFilled
    (by
      intro f hf
      rw [show scenarioFilled.parsedSchema.fields =
        [{ id := "name", type := .text, label := "Name", required := true }] from rfl,
        List.mem_singleton] at hf
      subst hf
      rfl)
